import Mathlib

/-!
Shallow embedding of `rteqc_api.py` (RTEQC-api): path templating via Python
`str.format`, trigger discovery via `glob` + `os.path.isfile`, the pandas
`read_csv` / `to_json(orient='table', index=False)` tabular pipeline at the
level of the values the claims are about, and the FastAPI route handlers.

Modelling conventions:
* the filesystem is a value: a flag for the base directory, the listing of its
  immediate children, and a partial map from absolute paths to file contents;
* pandas timestamps are modelled at millisecond resolution (the resolution of
  `to_json`'s default `date_unit='ms'` wire format); numbers are exact decimal
  mantissa/exponent pairs (the decimal literal as written); float64 rounding
  is not modelled;
* missing values (NaN), quoting in CSV fields and non-ISO date formats are not
  modelled; the claims do not exercise them.
-/

namespace RTEQC

/-! ### Character and digit helpers -/

/-- Numeric value of a decimal digit character. -/
def natOfDigit (c : Char) : Nat := c.toNat - 48

/-- Fixed-width decimal printing, most significant digit first
(`padDigits 2 5 = ['0','5']`). -/
def padDigits : Nat → Nat → List Char
  | 0, _ => []
  | w + 1, v => Nat.digitChar (v / 10 ^ w) :: padDigits w (v % 10 ^ w)

/-- Read exactly `w` decimal digits from the front of a character list,
accumulating into `acc`; fails on a non-digit or too-short input. -/
def readDigits : Nat → Nat → List Char → Option (Nat × List Char)
  | 0, acc, cs => some (acc, cs)
  | _ + 1, _, [] => none
  | w + 1, acc, c :: cs =>
      if c.isDigit then readDigits w (acc * 10 + natOfDigit c) cs else none

/-- Split a character list at every occurrence of `sep` (Python `str.split`). -/
def splitChars (sep : Char) : List Char → List Char → List (List Char)
  | [], acc => [acc.reverse]
  | c :: rest, acc =>
      if c = sep then acc.reverse :: splitChars sep rest []
      else splitChars sep rest (c :: acc)

/-- Split a string at every occurrence of the character `sep`. -/
def splitStr (sep : Char) (s : String) : List String :=
  (splitChars sep s.data []).map String.mk

/-- Decimal value of a digit list, most significant first. -/
def natOfDigits (cs : List Char) : Nat :=
  cs.foldl (fun a c => a * 10 + natOfDigit c) 0

theorem digitChar_isDigit {d : Nat} (h : d < 10) :
    (Nat.digitChar d).isDigit = true := by
  interval_cases d <;> decide

theorem natOfDigit_digitChar {d : Nat} (h : d < 10) :
    natOfDigit (Nat.digitChar d) = d := by
  interval_cases d <;> decide

theorem padDigits_length (w v : Nat) : (padDigits w v).length = w := by
  induction w generalizing v with
  | zero => rfl
  | succ w ih => simp [padDigits, ih]

theorem padDigits_all_isDigit (w v : Nat) (h : v < 10 ^ w) :
    (padDigits w v).all Char.isDigit = true := by
  induction w generalizing v with
  | zero => rfl
  | succ w ih =>
    have hd : v / 10 ^ w < 10 := Nat.div_lt_of_lt_mul (by rw [pow_succ] at h; exact h)
    simp only [padDigits, List.all_cons, Bool.and_eq_true]
    exact ⟨digitChar_isDigit hd, ih _ (Nat.mod_lt _ (Nat.pos_pow_of_pos w (by norm_num)))⟩

theorem readDigits_padDigits (w : Nat) :
    ∀ (acc v : Nat) (rest : List Char), v < 10 ^ w →
      readDigits w acc (padDigits w v ++ rest) = some (acc * 10 ^ w + v, rest) := by
  induction w with
  | zero =>
    intro acc v rest h
    interval_cases v
    simp [padDigits, readDigits]
  | succ w ih =>
    intro acc v rest h
    have hd : v / 10 ^ w < 10 := Nat.div_lt_of_lt_mul (by rw [pow_succ] at h; exact h)
    have hm : v % 10 ^ w < 10 ^ w := Nat.mod_lt _ (Nat.pos_pow_of_pos w (by norm_num))
    simp only [padDigits, List.cons_append, readDigits, digitChar_isDigit hd, if_true,
      natOfDigit_digitChar hd, List.append_eq, ih _ _ _ hm]
    congr 2
    have hv : 10 ^ w * (v / 10 ^ w) + v % 10 ^ w = v := Nat.div_add_mod v (10 ^ w)
    calc (acc * 10 + v / 10 ^ w) * 10 ^ w + v % 10 ^ w
        = acc * (10 ^ w * 10) + (10 ^ w * (v / 10 ^ w) + v % 10 ^ w) := by ring
      _ = acc * 10 ^ (w + 1) + v := by rw [hv, pow_succ]

/-- `natOfDigits` inverts fixed-width printing. -/
theorem natOfDigits_padDigits (w v : Nat) (h : v < 10 ^ w) :
    natOfDigits (padDigits w v) = v := by
  induction w generalizing v with
  | zero => interval_cases v; rfl
  | succ w ih =>
    have hd : v / 10 ^ w < 10 := Nat.div_lt_of_lt_mul (by rw [pow_succ] at h; exact h)
    have hm : v % 10 ^ w < 10 ^ w := Nat.mod_lt _ (Nat.pos_pow_of_pos w (by norm_num))
    have key : ∀ (cs : List Char) (a : Nat),
        cs.foldl (fun x c => x * 10 + natOfDigit c) a
          = a * 10 ^ cs.length + cs.foldl (fun x c => x * 10 + natOfDigit c) 0 := by
      intro cs
      induction cs with
      | nil => intro a; simp
      | cons c cs ihc =>
        intro a
        simp only [List.foldl_cons, List.length_cons]
        rw [ihc (a * 10 + natOfDigit c), ihc (0 * 10 + natOfDigit c)]
        ring
    simp only [natOfDigits, padDigits, List.foldl_cons] at *
    rw [key _ (0 * 10 + natOfDigit (Nat.digitChar (v / 10 ^ w)))]
    rw [natOfDigit_digitChar hd, padDigits_length]
    have := ih (v % 10 ^ w) hm
    simp only [natOfDigits] at this
    rw [this]
    have hv : 10 ^ w * (v / 10 ^ w) + v % 10 ^ w = v := Nat.div_add_mod v (10 ^ w)
    calc (0 * 10 + v / 10 ^ w) * 10 ^ w + v % 10 ^ w
        = 10 ^ w * (v / 10 ^ w) + v % 10 ^ w := by ring
      _ = v := hv

/-! ### Timestamps

`pd.read_csv(..., parse_dates=[1])` parses the designated column with
`pd.to_datetime`; `to_json(orient='table')` serializes timestamps in ISO
format at the default `date_unit='ms'` (`YYYY-MM-DDTHH:MM:SS.mmm`).  We model
timestamps at that millisecond resolution and parsing for the ISO date /
date-time shapes the claims exercise. -/

structure Timestamp where
  year : Nat
  month : Nat
  day : Nat
  hour : Nat
  minute : Nat
  second : Nat
  millis : Nat
deriving DecidableEq

/-- Field bounds under which a timestamp denotes a calendar datetime and
prints back uniquely. -/
def Timestamp.wf (t : Timestamp) : Bool :=
  decide (t.year < 10000) && decide (0 < t.month) && decide (t.month ≤ 12) &&
  decide (0 < t.day) && decide (t.day ≤ 31) && decide (t.hour < 24) &&
  decide (t.minute < 60) && decide (t.second < 60) && decide (t.millis < 1000)

/-- ISO serialization with millisecond precision, as `to_json` emits for a
naive `datetime64` value. -/
def isoMs (t : Timestamp) : String :=
  String.mk (padDigits 4 t.year ++ '-' :: padDigits 2 t.month ++ '-' :: padDigits 2 t.day ++
    'T' :: padDigits 2 t.hour ++ ':' :: padDigits 2 t.minute ++ ':' :: padDigits 2 t.second ++
    '.' :: padDigits 3 t.millis)

/-- Consume one expected character. -/
def expectChar (c : Char) : List Char → Option (List Char)
  | x :: rest => if x = c then some rest else none
  | [] => none

theorem expectChar_cons_self (c : Char) (rest : List Char) :
    expectChar c (c :: rest) = some rest := by
  simp [expectChar]

/-- Fractional seconds after the dot: one to three digits, scaled to
milliseconds (`.5` is 500 ms). -/
def parseFrac (ds : List Char) : Option Nat :=
  if 1 ≤ ds.length ∧ ds.length ≤ 3 ∧ ds.all Char.isDigit then
    some (natOfDigits ds * 10 ^ (3 - ds.length))
  else none

/-- Millisecond part: either nothing or a dot followed by fractional digits. -/
def parseMsPart : List Char → Option Nat
  | [] => some 0
  | c :: ds => if c = '.' then parseFrac ds else none

theorem parseMsPart_dot (ds : List Char) : parseMsPart ('.' :: ds) = parseFrac ds := by
  simp [parseMsPart]

/-- `HH:MM:SS` with optional fractional seconds. -/
def parseClock (cs : List Char) : Option (Nat × Nat × Nat × Nat) := do
  let (h, cs) ← readDigits 2 0 cs
  let cs ← expectChar ':' cs
  let (mi, cs) ← readDigits 2 0 cs
  let cs ← expectChar ':' cs
  let (s, cs) ← readDigits 2 0 cs
  let ms ← parseMsPart cs
  some (h, mi, s, ms)

/-- Time-of-day part: absent (midnight), or a `T`/space separator followed by a
clock reading. -/
def parseTimePart : List Char → Option (Nat × Nat × Nat × Nat)
  | [] => some (0, 0, 0, 0)
  | c :: rest => if c = 'T' ∨ c = ' ' then parseClock rest else none

theorem parseTimePart_T (rest : List Char) : parseTimePart ('T' :: rest) = parseClock rest := by
  simp [parseTimePart]

/-- ISO-8601 date or date-time, without the calendar-bounds validation. -/
def parseTimestampRaw (cs : List Char) : Option Timestamp := do
  let (y, cs) ← readDigits 4 0 cs
  let cs ← expectChar '-' cs
  let (mo, cs) ← readDigits 2 0 cs
  let cs ← expectChar '-' cs
  let (d, cs) ← readDigits 2 0 cs
  let (h, mi, s, ms) ← parseTimePart cs
  some ⟨y, mo, d, h, mi, s, ms⟩

/-- Reject out-of-range calendar components. -/
def guardWf (t : Timestamp) : Option Timestamp :=
  if t.wf then some t else none

/-- ISO-8601 date or date-time (`T` or space separated), millisecond
resolution, with calendar-bounds validation — the `pd.to_datetime` shapes the
claims exercise. -/
def parseTimestampChars (cs : List Char) : Option Timestamp :=
  (parseTimestampRaw cs).bind guardWf

def parseTimestamp (s : String) : Option Timestamp :=
  parseTimestampChars s.data

/-- Only validated timestamps come out of the parser. -/
theorem parseTimestamp_wf {s : String} {t : Timestamp}
    (h : parseTimestamp s = some t) : t.wf = true := by
  unfold parseTimestamp parseTimestampChars at h
  rw [Option.bind_eq_some] at h
  obtain ⟨u, -, hg⟩ := h
  unfold guardWf at hg
  split at hg
  · cases hg; assumption
  · exact absurd hg (by simp)

/-- Parsing inverts printing for validated timestamps. -/
theorem parseTimestamp_isoMs (t : Timestamp) (h : t.wf = true) :
    parseTimestamp (isoMs t) = some t := by
  obtain ⟨y, mo, d, hh, mi, ss, ms⟩ := t
  have hb : y < 10000 ∧ 0 < mo ∧ mo ≤ 12 ∧ 0 < d ∧ d ≤ 31 ∧ hh < 24 ∧ mi < 60 ∧
      ss < 60 ∧ ms < 1000 := by
    simp only [Timestamp.wf, Bool.and_eq_true, decide_eq_true_eq] at h
    tauto
  obtain ⟨hy, hmo, hmo', hd, hd', hhh, hmi, hss, hms⟩ := hb
  have e4 : ∀ rest, readDigits 4 0 (padDigits 4 y ++ rest) = some (y, rest) := by
    intro rest
    rw [readDigits_padDigits 4 0 y rest (by norm_num; omega)]
    norm_num
  have e2 : ∀ v, v < 100 → ∀ rest, readDigits 2 0 (padDigits 2 v ++ rest) = some (v, rest) := by
    intro v hv rest
    rw [readDigits_padDigits 2 0 v rest (by norm_num; omega)]
    norm_num
  have hfrac : parseFrac (padDigits 3 ms) = some ms := by
    unfold parseFrac
    rw [if_pos]
    · rw [natOfDigits_padDigits 3 ms (by norm_num; omega), padDigits_length]
      norm_num
    · refine ⟨by rw [padDigits_length]; norm_num, by rw [padDigits_length], ?_⟩
      exact padDigits_all_isDigit 3 ms (by norm_num; omega)
  show parseTimestampChars (padDigits 4 y ++ '-' :: (padDigits 2 mo ++ '-' :: (padDigits 2 d ++
    'T' :: (padDigits 2 hh ++ ':' :: (padDigits 2 mi ++ ':' :: (padDigits 2 ss ++
    '.' :: padDigits 3 ms)))))) = some ⟨y, mo, d, hh, mi, ss, ms⟩
  unfold parseTimestampChars parseTimestampRaw
  rw [e4]
  simp only [bind, Option.some_bind, expectChar_cons_self,
    e2 mo (by omega), e2 d (by omega), parseTimePart_T]
  unfold parseClock
  simp only [bind, Option.some_bind, expectChar_cons_self,
    e2 hh (by omega), e2 mi (by omega), e2 ss (by omega), parseMsPart_dot, hfrac]
  unfold guardWf
  rw [if_pos]
  simp only [Timestamp.wf, Bool.and_eq_true, decide_eq_true_eq]
  omega

/-! ### Scalars and column type inference

`pd.read_csv` infers one dtype per column: `int64` when every entry parses as
an integer, `float64` when every entry parses as a number, otherwise `object`
(strings); `parse_dates=[1]` additionally tries to parse the second column as
timestamps, leaving it as inferred when that fails. -/

inductive CellType where
  | int
  | num
  | str
  | datetime
deriving DecidableEq

/-- An exact decimal number `mant / 10 ^ exp`, as written in the file. -/
structure Dec where
  mant : Int
  exp : Nat
deriving DecidableEq

inductive CellValue where
  | int (i : Int)
  | num (d : Dec)
  | str (s : String)
  | dt (t : Timestamp)
deriving DecidableEq

/-- Nonempty all-digit character list. -/
def parseNatChars (cs : List Char) : Option Nat :=
  if cs ≠ [] ∧ cs.all Char.isDigit then some (natOfDigits cs) else none

/-- Optionally signed decimal integer. -/
def parseIntStr (s : String) : Option Int :=
  match s.data with
  | '-' :: rest => (parseNatChars rest).map (fun n => -(n : Int))
  | '+' :: rest => (parseNatChars rest).map (fun n => (n : Int))
  | cs => (parseNatChars cs).map (fun n => (n : Int))

/-- Unsigned decimal number, optionally with a fractional part (`5`, `5.2`,
`5.`, `.5`). -/
def parseMantissa (cs : List Char) : Option Dec :=
  match splitChars '.' cs [] with
  | [ip] => (parseNatChars ip).map (fun n => ⟨n, 0⟩)
  | [ip, fp] =>
      if (ip ++ fp) ≠ [] ∧ ip.all Char.isDigit ∧ fp.all Char.isDigit then
        some ⟨natOfDigits ip * 10 ^ fp.length + natOfDigits fp, fp.length⟩
      else none
  | _ => none

/-- Optionally signed decimal number. -/
def parseFloatStr (s : String) : Option Dec :=
  match s.data with
  | '-' :: rest => (parseMantissa rest).map (fun d => ⟨-d.mant, d.exp⟩)
  | '+' :: rest => parseMantissa rest
  | cs => parseMantissa cs

/-- Column dtype inference of `read_csv`. -/
def inferColType (vals : List String) : CellType :=
  if vals.all (fun s => (parseIntStr s).isSome) then .int
  else if vals.all (fun s => (parseFloatStr s).isSome) then .num
  else .str

/-- Column dtype at index `j` under `parse_dates=[1]`: the zero-based second
column becomes `datetime64` when every entry parses as a timestamp. -/
def colTypeAt (j : Nat) (vals : List String) : CellType :=
  if j = 1 ∧ vals.all (fun s => (parseTimestamp s).isSome) then .datetime
  else inferColType vals

def epoch : Timestamp := ⟨1970, 1, 1, 0, 0, 0, 0⟩

/-- Convert one raw CSV field at its column's inferred dtype.  The fallbacks
are unreachable: inference only assigns a dtype when every field parses. -/
def cellOf : CellType → String → CellValue
  | .int, s => .int ((parseIntStr s).getD 0)
  | .num, s => .num ((parseFloatStr s).getD ⟨0, 0⟩)
  | .str, s => .str s
  | .datetime, s => .dt ((parseTimestamp s).getD epoch)

/-! ### Tables and `read_csv` -/

/-- An in-memory dataframe: ordered columns, one dtype per column, rows in
file order. -/
structure Table where
  cols : List String
  colTypes : List CellType
  rows : List (List CellValue)
deriving DecidableEq

/-- `read_csv` deduplicates repeated header names by appending `.1`, `.2`, … -/
def mangleGo : List String → List String → List String
  | _, [] => []
  | seen, n :: rest =>
      (if seen.count n = 0 then n else n ++ "." ++ toString (seen.count n)) ::
        mangleGo (n :: seen) rest

def mangle (names : List String) : List String := mangleGo [] names

inductive PyError where
  | fileNotFound (path : String)
  | emptyData
  | parseError
deriving DecidableEq

instance {ε α : Type} [DecidableEq ε] [DecidableEq α] : DecidableEq (Except ε α) := fun a b =>
  match a, b with
  | .ok x, .ok y =>
      if h : x = y then .isTrue (by rw [h]) else .isFalse (fun hc => h (Except.ok.inj hc))
  | .error x, .error y =>
      if h : x = y then .isTrue (by rw [h]) else .isFalse (fun hc => h (Except.error.inj hc))
  | .ok _, .error _ => .isFalse (fun hc => Except.noConfusion hc)
  | .error _, .ok _ => .isFalse (fun hc => Except.noConfusion hc)

/-- Per-column dtype inference over the raw rows. -/
def inferTypes (cols : List String) (rawRows : List (List String)) : List CellType :=
  (List.range cols.length).map (fun j => colTypeAt j (rawRows.map (fun r => r.getD j "")))

/-- Assemble the dataframe from the parsed header and raw rows. -/
def mkTable (cols : List String) (rawRows : List (List String)) : Table :=
  ⟨cols, inferTypes cols rawRows,
   rawRows.map (fun r => ((inferTypes cols rawRows).zip r).map (fun p => cellOf p.1 p.2))⟩

/-- `pd.read_csv(..., parse_dates=[1])` on file contents: header row defines
the columns, each subsequent nonblank line is a row, dtypes are inferred per
column. -/
def parseCsv (content : String) : Except PyError Table :=
  match (splitStr '\n' content).filter (fun l => l != "") with
  | [] => .error .emptyData
  | header :: body =>
      if (body.map (fun l => splitStr ',' l)).all
          (fun r => r.length == (mangle (splitStr ',' header)).length) then
        .ok (mkTable (mangle (splitStr ',' header)) (body.map (fun l => splitStr ',' l)))
      else .error .parseError

/-! ### The wire format of `to_json(orient='table', index=False)`

`schema.fields` lists each column's name and Table-Schema type in column
order (`int64 ↦ "integer"`, `float64 ↦ "number"`, `object ↦ "string"`,
`datetime64 ↦ "datetime"`); `data` holds one record per row, in row order,
each mapping column names to values in column order; no index is emitted. -/

inductive JValue where
  | num (d : Dec)
  | str (s : String)
deriving DecidableEq

def typeName : CellType → String
  | .int => "integer"
  | .num => "number"
  | .str => "string"
  | .datetime => "datetime"

def typeOfName (s : String) : Option CellType :=
  if s = "integer" then some .int
  else if s = "number" then some .num
  else if s = "string" then some .str
  else if s = "datetime" then some .datetime
  else none

structure Wire where
  fields : List (String × String)
  data : List (List (String × JValue))
deriving DecidableEq

def encodeCell : CellValue → JValue
  | .int i => .num ⟨i, 0⟩
  | .num d => .num d
  | .str s => .str s
  | .dt t => .str (isoMs t)

/-- `DataFrame.to_json(orient='table', index=False)`. -/
def toWire (t : Table) : Wire :=
  ⟨t.cols.zip (t.colTypes.map typeName),
   t.rows.map (fun r => t.cols.zip (r.map encodeCell))⟩

/-- Schema-directed decoding of one value (`pd.read_json(orient='table')`). -/
def decodeCell : CellType → JValue → Option CellValue
  | .int, .num d => if d.exp = 0 then some (.int d.mant) else none
  | .num, .num d => some (.num d)
  | .str, .str s => some (.str s)
  | .datetime, .str s => (parseTimestamp s).map .dt
  | _, _ => none

def decodeTypes : List (String × String) → Option (List CellType)
  | [] => some []
  | f :: rest =>
      match typeOfName f.2, decodeTypes rest with
      | some ty, some tys => some (ty :: tys)
      | _, _ => none

def decodeCells : List CellType → List JValue → Option (List CellValue)
  | [], [] => some []
  | ty :: tys, v :: vs =>
      match decodeCell ty v, decodeCells tys vs with
      | some c, some cs => some (c :: cs)
      | _, _ => none
  | _, _ => none

def decodeRows (names : List String) (types : List CellType) :
    List (List (String × JValue)) → Option (List (List CellValue))
  | [] => some []
  | r :: rest =>
      if r.map Prod.fst = names then
        match decodeCells types (r.map Prod.snd), decodeRows names types rest with
        | some row, some rows => some (row :: rows)
        | _, _ => none
      else none

/-- Decoding `data` back into a table using `schema`. -/
def ofWire (w : Wire) : Option Table :=
  match decodeTypes w.fields with
  | none => none
  | some types =>
      match decodeRows (w.fields.map Prod.fst) types w.data with
      | none => none
      | some rows => some ⟨w.fields.map Prod.fst, types, rows⟩

/-! ### Round-trip -/

def cellHasType : CellValue → CellType → Bool
  | .int _, .int => true
  | .num _, .num => true
  | .str _, .str => true
  | .dt t, .datetime => t.wf
  | _, _ => false

/-- Tables as `read_csv` produces them: as many dtypes as columns, rows of
column width, every cell at its column's dtype. -/
def wfTable (t : Table) : Bool :=
  (t.colTypes.length == t.cols.length) &&
  t.rows.all (fun r =>
    (r.length == t.cols.length) && (r.zip t.colTypes).all (fun p => cellHasType p.1 p.2))

theorem typeOfName_typeName (ty : CellType) : typeOfName (typeName ty) = some ty := by
  cases ty <;> rfl

theorem decodeTypes_zip (cols : List String) (types : List CellType)
    (h : types.length = cols.length) :
    decodeTypes (cols.zip (types.map typeName)) = some types := by
  induction cols generalizing types with
  | nil =>
    cases types with
    | nil => rfl
    | cons ty tys => simp at h
  | cons c cs ih =>
    cases types with
    | nil => simp at h
    | cons ty tys =>
      simp only [List.length_cons] at h
      rw [show (c :: cs).zip ((ty :: tys).map typeName)
            = (c, typeName ty) :: cs.zip (tys.map typeName) from rfl]
      rw [decodeTypes, typeOfName_typeName, ih tys (by omega)]

theorem decodeCell_encodeCell (c : CellValue) (ty : CellType)
    (h : cellHasType c ty = true) : decodeCell ty (encodeCell c) = some c := by
  cases c with
  | int i =>
    cases ty with
    | int => rfl
    | num => exact absurd h (by simp [cellHasType])
    | str => exact absurd h (by simp [cellHasType])
    | datetime => exact absurd h (by simp [cellHasType])
  | num q =>
    cases ty with
    | num => rfl
    | int => exact absurd h (by simp [cellHasType])
    | str => exact absurd h (by simp [cellHasType])
    | datetime => exact absurd h (by simp [cellHasType])
  | str s =>
    cases ty with
    | str => rfl
    | int => exact absurd h (by simp [cellHasType])
    | num => exact absurd h (by simp [cellHasType])
    | datetime => exact absurd h (by simp [cellHasType])
  | dt t =>
    cases ty with
    | datetime =>
      have hw : t.wf = true := h
      simp [encodeCell, decodeCell, parseTimestamp_isoMs t hw]
    | int => exact absurd h (by simp [cellHasType])
    | num => exact absurd h (by simp [cellHasType])
    | str => exact absurd h (by simp [cellHasType])

theorem decodeCells_encode (row : List CellValue) (types : List CellType)
    (hlen : row.length = types.length)
    (h : (row.zip types).all (fun p => cellHasType p.1 p.2) = true) :
    decodeCells types (row.map encodeCell) = some row := by
  induction row generalizing types with
  | nil =>
    cases types with
    | nil => rfl
    | cons ty tys => simp at hlen
  | cons c cs ih =>
    cases types with
    | nil => simp at hlen
    | cons ty tys =>
      simp only [List.zip_cons_cons, List.all_cons, Bool.and_eq_true] at h
      simp only [List.map_cons, decodeCells, decodeCell_encodeCell c ty h.1,
        ih tys (by simpa using hlen) h.2]

theorem decodeRows_encode (cols : List String) (types : List CellType)
    (rows : List (List CellValue)) (hct : types.length = cols.length)
    (h : rows.all (fun r =>
        (r.length == cols.length) &&
          (r.zip types).all (fun p => cellHasType p.1 p.2)) = true) :
    decodeRows cols types (rows.map (fun r => cols.zip (r.map encodeCell))) = some rows := by
  induction rows with
  | nil => rfl
  | cons r rest ih =>
    simp only [List.all_cons, Bool.and_eq_true, beq_iff_eq] at h
    obtain ⟨⟨hrlen, hrtys⟩, hrest⟩ := h
    have hnames : (cols.zip (r.map encodeCell)).map Prod.fst = cols :=
      List.map_fst_zip _ _ (by simp [hrlen])
    have hvals : (cols.zip (r.map encodeCell)).map Prod.snd = r.map encodeCell :=
      List.map_snd_zip _ _ (by simp [hrlen])
    simp only [List.map_cons, decodeRows, hnames, if_pos rfl, hvals,
      decodeCells_encode r types (by omega) hrtys, ih hrest, if_true]

/-- Encoding a well-formed table to the wire format and decoding the data back
using the schema reproduces the table exactly. -/
theorem table_roundtrip (t : Table) (h : wfTable t = true) :
    ofWire (toWire t) = some t := by
  obtain ⟨cols, types, rows⟩ := t
  simp only [wfTable, Bool.and_eq_true, beq_iff_eq] at h
  obtain ⟨hct, hrows⟩ := h
  have hnames : (cols.zip (types.map typeName)).map Prod.fst = cols :=
    List.map_fst_zip _ _ (by simp [hct])
  unfold ofWire toWire
  simp only [decodeTypes_zip cols types hct, hnames,
    decodeRows_encode cols types rows hct hrows]

/-! ### `read_csv` output is well-formed -/

theorem cellOf_hasType (ty : CellType) (s : String) :
    cellHasType (cellOf ty s) ty = true := by
  cases ty with
  | int => rfl
  | num => rfl
  | str => rfl
  | datetime =>
    simp only [cellOf, cellHasType]
    cases hp : parseTimestamp s with
    | none => rw [Option.getD_none]; decide
    | some u => rw [Option.getD_some]; exact parseTimestamp_wf hp

theorem zip_cellOf_all (types : List CellType) (rr : List String) :
    (((types.zip rr).map (fun p => cellOf p.1 p.2)).zip types).all
      (fun p => cellHasType p.1 p.2) = true := by
  induction types generalizing rr with
  | nil => rfl
  | cons ty tys ih =>
    cases rr with
    | nil => rfl
    | cons s ss =>
      simp only [List.zip_cons_cons, List.map_cons, List.all_cons, Bool.and_eq_true]
      exact ⟨cellOf_hasType ty s, ih ss⟩

theorem mkTable_wf (cols : List String) (rawRows : List (List String))
    (hall : rawRows.all (fun r => r.length == cols.length) = true) :
    wfTable (mkTable cols rawRows) = true := by
  simp only [wfTable, mkTable, Bool.and_eq_true, beq_iff_eq]
  constructor
  · simp [inferTypes]
  · rw [List.all_eq_true]
    intro r hr
    rw [List.mem_map] at hr
    obtain ⟨rr, hrr, rfl⟩ := hr
    have hlen : rr.length = cols.length := by
      simpa using List.all_eq_true.mp hall _ hrr
    simp only [Bool.and_eq_true, beq_iff_eq]
    refine ⟨?_, zip_cellOf_all _ rr⟩
    simp [List.length_zip, inferTypes, hlen]

theorem parseCsv_wf {content : String} {t : Table}
    (h : parseCsv content = .ok t) : wfTable t = true := by
  unfold parseCsv at h
  split at h
  · exact absurd h (by simp)
  · split at h
    · rename_i hall
      injection h with h2
      subst h2
      exact mkTable_wf _ _ hall
    · exact absurd h (by simp)

/-! ### Python `str.format`

`"...{name}...".format(name=value)` scans the template once, replacing each
`{name}` field with the corresponding keyword argument verbatim; the
substituted text is not rescanned. -/

/-- One-pass scanner: `none` outside a replacement field, `some key` inside
one (accumulating the field name in reverse). -/
def pyFormatGo (args : List (String × String)) : Option (List Char) → List Char → List Char
  | _, [] => []
  | none, c :: rest =>
      if c = '{' then pyFormatGo args (some []) rest
      else c :: pyFormatGo args none rest
  | some key, c :: rest =>
      if c = '}' then
        ((args.lookup (String.mk key.reverse)).getD "").data ++ pyFormatGo args none rest
      else pyFormatGo args (some (c :: key)) rest

def pyFormat (template : String) (args : List (String × String)) : String :=
  String.mk (pyFormatGo args none template.data)

/-! ### The path templates and module constants of `rteqc_api.py` -/

def BASEPATH : String := "/tmp/outputs/detections"

def CATALOG_FILENAME : String := "{basepath}/{triggerID}/{triggerID}/output_out/catalog.csv"

def SOURCE_FILENAME : String :=
  "{basepath}/{triggerID}/{triggerID}/plotter_out/output_metrics_summary_file.csv"

def PLOT_FILENAME : String :=
  "{basepath}/{triggerID}/{triggerID}/plotter_out/{plot_type}_latest.png"

def KNOWN_PLOT_TYPES : List String :=
  ["Scaled_Magnitude_Comparison",
   "Aftershock_extent_depth_map",
   "catalog_RT",
   "catalog_templates",
   "confidence_ellipsoid",
   "confidence_ellipsoid_vertical",
   "focal_sphere",
   "Geometry_with_time"]

/-- The resolved catalog path, as built in `get_catalog` and `get_triggers`. -/
def catalogPath (triggerID : String) : String :=
  pyFormat CATALOG_FILENAME [("basepath", BASEPATH), ("triggerID", triggerID)]

/-- The resolved source-summary path, as built in `get_sources`. -/
def sourcePath (triggerID : String) : String :=
  pyFormat SOURCE_FILENAME [("basepath", BASEPATH), ("triggerID", triggerID)]

/-- The resolved plot path, as built in the `/plots/` handler. -/
def plotPath (triggerID plot_type : String) : String :=
  pyFormat PLOT_FILENAME
    [("triggerID", triggerID), ("basepath", BASEPATH), ("plot_type", plot_type)]

/-! ### Symbolic evaluation of `pyFormat` -/

theorem pyFormatGo_lit (args : List (String × String)) (lit rest : List Char)
    (h : lit.all (fun c => c != '{') = true) :
    pyFormatGo args none (lit ++ rest) = lit ++ pyFormatGo args none rest := by
  induction lit with
  | nil => rfl
  | cons c cs ih =>
    simp only [List.all_cons, Bool.and_eq_true, bne_iff_ne] at h
    simp only [List.cons_append, pyFormatGo, if_neg h.1, List.append_eq, ih h.2]

theorem pyFormatGo_key (args : List (String × String)) (key : List Char) :
    ∀ (acc rest : List Char), key.all (fun c => c != '}') = true →
      pyFormatGo args (some acc) (key ++ '}' :: rest)
        = ((args.lookup (String.mk (acc.reverse ++ key))).getD "").data ++
            pyFormatGo args none rest := by
  induction key with
  | nil =>
    intro acc rest _
    simp [pyFormatGo]
  | cons c cs ih =>
    intro acc rest h
    simp only [List.all_cons, Bool.and_eq_true, bne_iff_ne] at h
    simp only [List.cons_append, pyFormatGo, if_neg h.1, List.append_eq,
      ih (c :: acc) rest h.2, List.reverse_cons, List.append_assoc, List.cons_append,
      List.nil_append]

theorem pyFormatGo_sub (args : List (String × String)) (key rest : List Char)
    (h : key.all (fun c => c != '}') = true) :
    pyFormatGo args none ('{' :: (key ++ '}' :: rest))
      = ((args.lookup (String.mk key)).getD "").data ++ pyFormatGo args none rest := by
  show pyFormatGo args (some []) (key ++ '}' :: rest) = _
  rw [pyFormatGo_key args key [] rest h]
  rfl

/-! ### Filesystem model, `glob`, and `get_triggers` -/

/-- A filesystem state: whether the base directory exists, its immediate
children (name, is-directory) in listing order, and the regular files by
absolute path. -/
structure FS where
  baseExists : Bool
  children : List (String × Bool)
  file : String → Option String

/-- A leading dot: `glob`'s `*` does not match hidden entries. -/
def hiddenName (n : String) : Bool :=
  match n.data with
  | c :: _ => c == '.'
  | [] => false

/-- `glob.glob(f"{BASEPATH}/*")`: the non-hidden immediate children of the
base directory as full paths, none when the base directory is absent. -/
def glob_base (fs : FS) : List String :=
  if fs.baseExists then
    ((fs.children.map Prod.fst).filter (fun n => !hiddenName n)).map
      (fun n => BASEPATH ++ "/" ++ n)
  else []

/-- `os.path.basename`: the component after the last slash. -/
def basename (p : String) : String := (splitStr '/' p).getLastD ""

/-- `os.path.isfile`. -/
def isfile (fs : FS) (p : String) : Bool := (fs.file p).isSome

/-- `get_triggers`: scan the glob results, keep the basenames whose resolved
catalog file exists, in listing order. -/
def get_triggers (fs : FS) : List String :=
  ((glob_base fs).map basename).filter (fun tid => isfile fs (catalogPath tid))

/-! ### `read_csv` against the filesystem and the route handlers -/

/-- `pd.read_csv(filepath_or_buffer=path, parse_dates=[1])`: raises
`FileNotFoundError` when the path is not a file, else parses the contents.
(The `isfile` check in `get_catalog`/`get_sources` only logs, so the missing
file surfaces here.) -/
def pd_read_csv (fs : FS) (path : String) : Except PyError Table :=
  match fs.file path with
  | none => .error (.fileNotFound path)
  | some content => parseCsv content

def get_catalog (fs : FS) (triggerID : String) : Except PyError Table :=
  pd_read_csv fs (catalogPath triggerID)

def get_sources (fs : FS) (triggerID : String) : Except PyError Table :=
  pd_read_csv fs (sourcePath triggerID)

/-- JSON-like values, for the content object the `/triggers/` handler builds. -/
inductive Json where
  | str (s : String)
  | arr (elts : List Json)
  | obj (members : List (String × Json))

/-- What a handler returns: the `f"ERROR: {e}"` string, a `StreamingResponse`
over a Python object, a `StreamingResponse` over the `to_json` wire document,
an `HTMLResponse` with a status code, or a `FileResponse` serving a file's
bytes. -/
inductive Response where
  | errText (s : String)
  | stream (content : Json)
  | jsonTable (w : Wire)
  | html (status : Nat) (body : String)
  | fileBytes (content : String)

def squote : String := String.singleton (Char.ofNat 39)

/-- `str(e)` for the exceptions the handlers can see. -/
def pyErrStr : PyError → String
  | .fileNotFound p => "[Errno 2] No such file or directory: " ++ squote ++ p ++ squote
  | .emptyData => "No columns to parse from file"
  | .parseError => "Error tokenizing data."

/-- The `/triggers/` handler: builds `{"trigger_ids": trigger_ids}` and hands
that dict to `StreamingResponse` as its content. -/
def triggers_route (fs : FS) : Response :=
  .stream (.obj [("trigger_ids", .arr ((get_triggers fs).map .str))])

/-- The `/catalog/` handler: `get_catalog`, `f"ERROR: {e}"` on exception,
otherwise `cat_df.to_json(index=False, orient='table')` streamed back. -/
def catalog_route (fs : FS) (triggerID : String) : Response :=
  match get_catalog fs triggerID with
  | .error e => .errText ("ERROR: " ++ pyErrStr e)
  | .ok df => .jsonTable (toWire df)

/-- The `/sources/` handler, same shape as `/catalog/`. -/
def sources_route (fs : FS) (triggerID : String) : Response :=
  match get_sources fs triggerID with
  | .error e => .errText ("ERROR: " ++ pyErrStr e)
  | .ok df => .jsonTable (toWire df)

def joinSep (sep : String) : List String → String
  | [] => ""
  | [s] => s
  | s :: rest => s ++ sep ++ joinSep sep rest

/-- Python `str` of a list of strings: `['a', 'b']`. -/
def pyListRepr (l : List String) : String :=
  "[" ++ joinSep ", " (l.map (fun s => squote ++ s ++ squote)) ++ "]"

/-- The 400 body of the `/plots/` handler's unknown-kind branch, transcribed
from its f-string. -/
def plotBodyUnknown (plot_type : String) : String :=
  "\n    <html>\n        <p>" ++ plot_type ++
    " is not a known plot format.</p>\n        <p>Known plot types:</p>\n        <p>" ++
    pyListRepr KNOWN_PLOT_TYPES ++ "</p>\n    </html>\n    "

/-- The 400 body of the `/plots/` handler's missing-file branch, transcribed
from its f-string. -/
def plotBodyMissing (plot_type : String) : String :=
  "\n    <html>\n        <p>" ++ plot_type ++
    " is not a known plot format.</p>\n        <p>Known plot types:</p>\n        <p>" ++
    pyListRepr KNOWN_PLOT_TYPES ++ "</p>\n    </html>\n    "

/-- The `/plots/` handler: reject unknown kinds with a 400 page, resolve the
plot path, reject a missing file with a 400 page, else serve the file. -/
def plots_route (fs : FS) (triggerID plot_type : String) : Response :=
  if plot_type ∈ KNOWN_PLOT_TYPES then
    match fs.file (plotPath triggerID plot_type) with
    | none => .html 400 (plotBodyMissing plot_type)
    | some c => .fileBytes c
  else .html 400 (plotBodyUnknown plot_type)

/-! ### Splitting and `basename` facts -/

theorem splitChars_no_sep (sep : Char) :
    ∀ (l acc : List Char), sep ∉ l → splitChars sep l acc = [acc.reverse ++ l] := by
  intro l
  induction l with
  | nil => intro acc _; simp [splitChars]
  | cons c cs ih =>
    intro acc h
    rw [List.mem_cons, not_or] at h
    have hc : ¬ c = sep := fun hc => h.1 hc.symm
    simp only [splitChars, if_neg hc, ih (c :: acc) h.2, List.reverse_cons,
      List.append_assoc, List.cons_append, List.nil_append]

theorem splitChars_append_sep (sep : Char) (l2 : List Char) :
    ∀ (l1 acc : List Char),
      ∃ pre, splitChars sep (l1 ++ sep :: l2) acc = pre ++ splitChars sep l2 [] := by
  intro l1
  induction l1 with
  | nil =>
    intro acc
    exact ⟨[acc.reverse], by simp [splitChars]⟩
  | cons c cs ih =>
    intro acc
    by_cases hc : c = sep
    · obtain ⟨pre, hpre⟩ := ih []
      exact ⟨acc.reverse :: pre, by simp [splitChars, hc, hpre]⟩
    · obtain ⟨pre, hpre⟩ := ih (c :: acc)
      exact ⟨pre, by simp [splitChars, hc, hpre]⟩

/-- `os.path.basename` of a path `BASEPATH + "/" + n` for a slash-free `n`. -/
theorem basename_base_concat (n : String) (h : ('/' : Char) ∉ n.data) :
    basename (BASEPATH ++ "/" ++ n) = n := by
  unfold basename splitStr
  rw [show (BASEPATH ++ "/" ++ n).data = BASEPATH.data ++ '/' :: n.data from rfl]
  obtain ⟨pre, hpre⟩ := splitChars_append_sep '/' n.data BASEPATH.data []
  rw [hpre, splitChars_no_sep '/' n.data [] h]
  simp only [List.reverse_nil, List.nil_append]
  rw [List.map_append]
  simp only [List.map_cons, List.map_nil]
  rw [List.getLastD_concat]

/-! ### Claim C5 -/

/-- C5: path resolution is pure verbatim substitution into the three fixed
templates, with no existence check, normalization, or escaping, and the
trigger identifier appears exactly twice — for every base directory, trigger
identifier (including ones with separators or traversal sequences), and plot
kind. -/
theorem path_resolution (b tid pt : String) :
    pyFormat CATALOG_FILENAME [("basepath", b), ("triggerID", tid)]
        = b ++ "/" ++ tid ++ "/" ++ tid ++ "/output_out/catalog.csv"
  ∧ pyFormat SOURCE_FILENAME [("basepath", b), ("triggerID", tid)]
        = b ++ "/" ++ tid ++ "/" ++ tid ++ "/plotter_out/output_metrics_summary_file.csv"
  ∧ pyFormat PLOT_FILENAME [("triggerID", tid), ("basepath", b), ("plot_type", pt)]
        = b ++ "/" ++ tid ++ "/" ++ tid ++ "/plotter_out/" ++ pt ++ "_latest.png" := by
  refine ⟨?_, ?_, ?_⟩
  · apply String.ext
    show pyFormatGo [("basepath", b), ("triggerID", tid)] none CATALOG_FILENAME.data = _
    rw [show CATALOG_FILENAME.data
        = '{' :: ("basepath".data ++ '}' :: ("/".data ++
          ('{' :: ("triggerID".data ++ '}' :: ("/".data ++
          ('{' :: ("triggerID".data ++ '}' :: "/output_out/catalog.csv".data))))))) from rfl]
    rw [pyFormatGo_sub _ _ _ (by decide), pyFormatGo_lit _ _ _ (by decide),
      pyFormatGo_sub _ _ _ (by decide), pyFormatGo_lit _ _ _ (by decide),
      pyFormatGo_sub _ _ _ (by decide),
      show pyFormatGo [("basepath", b), ("triggerID", tid)] none
          "/output_out/catalog.csv".data = "/output_out/catalog.csv".data from by
        rw [show "/output_out/catalog.csv".data
            = "/output_out/catalog.csv".data ++ [] from (List.append_nil _).symm]
        rw [pyFormatGo_lit _ _ _ (by decide)]
        rfl]
    rw [show ((List.lookup (String.mk "basepath".data)
        [("basepath", b), ("triggerID", tid)]).getD "") = b from rfl]
    rw [show ((List.lookup (String.mk "triggerID".data)
        [("basepath", b), ("triggerID", tid)]).getD "") = tid from rfl]
    simp [String.data_append, List.append_assoc]
  · apply String.ext
    show pyFormatGo [("basepath", b), ("triggerID", tid)] none SOURCE_FILENAME.data = _
    rw [show SOURCE_FILENAME.data
        = '{' :: ("basepath".data ++ '}' :: ("/".data ++
          ('{' :: ("triggerID".data ++ '}' :: ("/".data ++
          ('{' :: ("triggerID".data ++ '}' ::
            "/plotter_out/output_metrics_summary_file.csv".data))))))) from rfl]
    rw [pyFormatGo_sub _ _ _ (by decide), pyFormatGo_lit _ _ _ (by decide),
      pyFormatGo_sub _ _ _ (by decide), pyFormatGo_lit _ _ _ (by decide),
      pyFormatGo_sub _ _ _ (by decide),
      show pyFormatGo [("basepath", b), ("triggerID", tid)] none
          "/plotter_out/output_metrics_summary_file.csv".data
          = "/plotter_out/output_metrics_summary_file.csv".data from by
        rw [show "/plotter_out/output_metrics_summary_file.csv".data
            = "/plotter_out/output_metrics_summary_file.csv".data ++ []
          from (List.append_nil _).symm]
        rw [pyFormatGo_lit _ _ _ (by decide)]
        rfl]
    rw [show ((List.lookup (String.mk "basepath".data)
        [("basepath", b), ("triggerID", tid)]).getD "") = b from rfl]
    rw [show ((List.lookup (String.mk "triggerID".data)
        [("basepath", b), ("triggerID", tid)]).getD "") = tid from rfl]
    simp [String.data_append, List.append_assoc]
  · apply String.ext
    show pyFormatGo [("triggerID", tid), ("basepath", b), ("plot_type", pt)] none
      PLOT_FILENAME.data = _
    rw [show PLOT_FILENAME.data
        = '{' :: ("basepath".data ++ '}' :: ("/".data ++
          ('{' :: ("triggerID".data ++ '}' :: ("/".data ++
          ('{' :: ("triggerID".data ++ '}' :: ("/plotter_out/".data ++
          ('{' :: ("plot_type".data ++ '}' :: "_latest.png".data)))))))))) from rfl]
    rw [pyFormatGo_sub _ _ _ (by decide), pyFormatGo_lit _ _ _ (by decide),
      pyFormatGo_sub _ _ _ (by decide), pyFormatGo_lit _ _ _ (by decide),
      pyFormatGo_sub _ _ _ (by decide), pyFormatGo_lit _ _ _ (by decide),
      pyFormatGo_sub _ _ _ (by decide),
      show pyFormatGo [("triggerID", tid), ("basepath", b), ("plot_type", pt)] none
          "_latest.png".data = "_latest.png".data from by
        rw [show "_latest.png".data = "_latest.png".data ++ [] from (List.append_nil _).symm]
        rw [pyFormatGo_lit _ _ _ (by decide)]
        rfl]
    rw [show ((List.lookup (String.mk "basepath".data)
        [("triggerID", tid), ("basepath", b), ("plot_type", pt)]).getD "") = b from rfl]
    rw [show ((List.lookup (String.mk "triggerID".data)
        [("triggerID", tid), ("basepath", b), ("plot_type", pt)]).getD "") = tid from rfl]
    rw [show ((List.lookup (String.mk "plot_type".data)
        [("triggerID", tid), ("basepath", b), ("plot_type", pt)]).getD "") = pt from rfl]
    simp [String.data_append, List.append_assoc]

/-! ### Claims C1, C8, C9 — trigger discovery -/

/-- The scenario filesystem: base directory with subdirectories
`2014p051675` (with catalog) and `empty_dir` (without). -/
def fsScenario : FS :=
  ⟨true, [("2014p051675", true), ("empty_dir", true)],
   fun p =>
     if p = catalogPath "2014p051675" then
       some "id,time,magnitude\n1,2014-01-01T00:00:00,5.2"
     else none⟩

/-- A base directory whose only subdirectory is dot-prefixed but has a
catalog file. -/
def fsHidden : FS :=
  ⟨true, [(".2014p051675", true)],
   fun p =>
     if p = catalogPath ".2014p051675" then
       some "id,time,magnitude\n1,2014-01-01T00:00:00,5.2"
     else none⟩

/-- A filesystem whose base directory does not exist. -/
def fsNoBase : FS := ⟨false, [("2014p051675", true)], fun _ => none⟩

/-- An existing but empty base directory with no files at all. -/
def fsEmpty : FS := ⟨true, [], fun _ => none⟩

/-- C1 (counterexample): at a base directory whose only subdirectory is
dot-prefixed yet has an existing catalog file, `get_triggers` does not return
every subdirectory name whose catalog path is an existing file — the claimed
membership equivalence fails. -/
theorem get_triggers_exact_cex :
    ¬ (∀ name, name ∈ get_triggers fsHidden ↔
        ((name, true) ∈ fsHidden.children ∧ isfile fsHidden (catalogPath name) = true)) := by
  intro h
  have hmem := (h ".2014p051675").mpr ⟨by decide, by decide⟩
  rw [show get_triggers fsHidden = [] from rfl] at hmem
  exact absurd hmem (List.not_mem_nil _)

/-- C1 (amended): over filesystems whose child names are slash-free and where
only directories carry catalog files, `get_triggers` returns exactly the
immediate subdirectory names that do not start with a dot and whose resolved
catalog path is an existing file. -/
theorem get_triggers_exact (fs : FS)
    (hbase : fs.baseExists = true)
    (hnames : ∀ p ∈ fs.children, ('/' : Char) ∉ p.1.data)
    (hdirs : ∀ p ∈ fs.children, isfile fs (catalogPath p.1) = true → p.2 = true)
    (name : String) :
    name ∈ get_triggers fs ↔
      ((name, true) ∈ fs.children ∧ hiddenName name = false ∧
        isfile fs (catalogPath name) = true) := by
  constructor
  · intro hmem
    unfold get_triggers at hmem
    rw [List.mem_filter] at hmem
    obtain ⟨hmem, hcat⟩ := hmem
    rw [List.mem_map] at hmem
    obtain ⟨p, hp, rfl⟩ := hmem
    simp only [glob_base, hbase, if_true] at hp
    rw [List.mem_map] at hp
    obtain ⟨n, hn, rfl⟩ := hp
    rw [List.mem_filter] at hn
    obtain ⟨hn, hnothid⟩ := hn
    rw [List.mem_map] at hn
    obtain ⟨q, hq, rfl⟩ := hn
    rw [basename_base_concat q.1 (hnames q hq)] at hcat ⊢
    refine ⟨?_, by simpa using hnothid, hcat⟩
    have hq2 : q.2 = true := hdirs q hq hcat
    have : q = (q.1, true) := by
      obtain ⟨a, b⟩ := q
      simp only at hq2
      rw [hq2]
    rw [← this]
    exact hq
  · rintro ⟨hmem, hhid, hcat⟩
    unfold get_triggers
    rw [List.mem_filter]
    refine ⟨?_, hcat⟩
    rw [List.mem_map]
    refine ⟨BASEPATH ++ "/" ++ name, ?_,
      basename_base_concat name (hnames (name, true) hmem)⟩
    simp only [glob_base, hbase, if_true]
    rw [List.mem_map]
    refine ⟨name, ?_, rfl⟩
    rw [List.mem_filter]
    exact ⟨List.mem_map.mpr ⟨(name, true), hmem, rfl⟩, by simp [hhid]⟩

/-- C1 (witness): on the scenario filesystem the amended equivalence holds at
`2014p051675`, and the scan returns exactly `["2014p051675"]`. -/
theorem get_triggers_exact_witness :
    get_triggers fsScenario = ["2014p051675"] ∧
      ("2014p051675" ∈ get_triggers fsScenario ↔
        (("2014p051675", true) ∈ fsScenario.children ∧
          hiddenName "2014p051675" = false ∧
          isfile fsScenario (catalogPath "2014p051675") = true)) :=
  ⟨by decide,
   get_triggers_exact fsScenario rfl (by decide) (by decide) "2014p051675"⟩

/-- C8: when the base directory does not exist, `get_triggers` returns the
empty list rather than raising — indistinguishable from zero triggers
found. -/
theorem get_triggers_no_base (fs : FS) (h : fs.baseExists = false) :
    get_triggers fs = [] := by
  simp [get_triggers, glob_base, h]

/-- C8 (witness): the missing-base filesystem yields the empty list. -/
theorem get_triggers_no_base_witness : get_triggers fsNoBase = [] :=
  get_triggers_no_base fsNoBase rfl

/-- C9: a dot-prefixed child name never appears in `get_triggers`' result,
because `glob`'s `*` pattern skips hidden entries. -/
theorem get_triggers_skips_hidden (fs : FS)
    (hnames : ∀ p ∈ fs.children, ('/' : Char) ∉ p.1.data)
    (name : String) (hhid : hiddenName name = true) :
    name ∉ get_triggers fs := by
  intro hmem
  unfold get_triggers at hmem
  rw [List.mem_filter] at hmem
  obtain ⟨hmem, -⟩ := hmem
  rw [List.mem_map] at hmem
  obtain ⟨p, hp, rfl⟩ := hmem
  unfold glob_base at hp
  split at hp
  · rw [List.mem_map] at hp
    obtain ⟨n, hn, rfl⟩ := hp
    rw [List.mem_filter] at hn
    obtain ⟨hn, hnothid⟩ := hn
    rw [List.mem_map] at hn
    obtain ⟨q, hq, rfl⟩ := hn
    rw [basename_base_concat q.1 (hnames q hq)] at hhid
    rw [hhid] at hnothid
    exact absurd hnothid (by decide)
  · exact absurd hp (List.not_mem_nil _)

/-- C9 (witness): the dot-prefixed subdirectory with an existing catalog file
is still excluded. -/
theorem get_triggers_skips_hidden_witness :
    isfile fsHidden (catalogPath ".2014p051675") = true ∧
      ".2014p051675" ∉ get_triggers fsHidden :=
  ⟨by decide, get_triggers_skips_hidden fsHidden (by decide) ".2014p051675" (by decide)⟩

/-! ### Claims C2, C3 — the tabular wire format -/

/-- The scenario catalog file contents. -/
def csvScenario : String := "id,time,magnitude\n1,2014-01-01T00:00:00,5.2"

/-- The dataframe `read_csv` produces for the scenario file. -/
def tableScenario : Table :=
  ⟨["id", "time", "magnitude"], [.int, .datetime, .num],
   [[.int 1, .dt ⟨2014, 1, 1, 0, 0, 0, 0⟩, .num ⟨52, 1⟩]]⟩

/-- C2: every table produced by loading a delimited file survives the wire
round-trip — encoding to the schema-plus-data document and decoding the data
back with the schema reproduces column order, row order, values and types. -/
theorem wire_roundtrip (content : String) (t : Table)
    (h : parseCsv content = .ok t) : ofWire (toWire t) = some t :=
  table_roundtrip t (parseCsv_wf h)

/-- C2 (witness): the scenario catalog loads to `tableScenario` and
round-trips. -/
theorem wire_roundtrip_witness :
    parseCsv csvScenario = .ok tableScenario ∧
      ofWire (toWire tableScenario) = some tableScenario :=
  ⟨by decide, wire_roundtrip csvScenario tableScenario (by decide)⟩

/-- The wire document the claim describes for the scenario file: `id` typed
`number` and the timestamp echoed without the millisecond suffix. -/
def wireClaimed : Wire :=
  ⟨[("id", "number"), ("time", "datetime"), ("magnitude", "number")],
   [[("id", .num ⟨1, 0⟩), ("time", .str "2014-01-01T00:00:00"),
     ("magnitude", .num ⟨52, 1⟩)]]⟩

/-- The wire document the code produces for the scenario file. -/
def wireActual : Wire :=
  ⟨[("id", "integer"), ("time", "datetime"), ("magnitude", "number")],
   [[("id", .num ⟨1, 0⟩), ("time", .str "2014-01-01T00:00:00.000"),
     ("magnitude", .num ⟨52, 1⟩)]]⟩

/-- C3 (counterexample): the scenario file does not produce the claimed wire
document — the all-integer column `id` is reported as `integer`, not
`number`, and the record's timestamp carries `to_json`'s millisecond
suffix. -/
theorem scenario_wire_cex :
    (parseCsv csvScenario).map toWire ≠ Except.ok wireClaimed := by decide

/-- The raw strings of column `j`: the `j`-th comma-separated field of every
nonblank line after the header. -/
def rawColumn (content : String) (j : Nat) : List String :=
  ((splitStr '\n' content).filter (fun l => l != "")).tail.map
    (fun l => (splitStr ',' l).getD j "")

/-- C3 (amended): for every loaded file, the wire schema reports the column
at zero-based index 1 as `datetime` when its entries all parse as timestamps,
and every other column by whole-column inference — `integer` when every entry
parses as an integer, `number` when every entry parses as a number, `string`
otherwise; concretely, the scenario file yields schema columns `id`
(integer), `time` (datetime), `magnitude` (number) and the single record
`{id: 1, time: "2014-01-01T00:00:00.000", magnitude: 5.2}`. -/
theorem csv_types_spec :
    (∀ (content : String) (t : Table), parseCsv content = .ok t →
      ∀ j, j < t.cols.length →
        ((toWire t).fields.map Prod.snd)[j]? = some (
          if j = 1 ∧ (rawColumn content j).all (fun s => (parseTimestamp s).isSome)
          then "datetime"
          else if (rawColumn content j).all (fun s => (parseIntStr s).isSome) then "integer"
          else if (rawColumn content j).all (fun s => (parseFloatStr s).isSome) then "number"
          else "string"))
  ∧ (parseCsv csvScenario).map toWire = Except.ok wireActual := by
  constructor
  · intro content t h j hj
    unfold parseCsv at h
    split at h
    · exact absurd h (by simp)
    · rename_i header body hlines
      split at h
      · injection h with h2
        subst h2
        simp only [mkTable] at hj
        have hctlen : (inferTypes (mangle (splitStr ',' header))
            (body.map (fun l => splitStr ',' l))).length
            = (mangle (splitStr ',' header)).length := by
          simp [inferTypes]
        have hfields : (toWire (mkTable (mangle (splitStr ',' header))
              (body.map (fun l => splitStr ',' l)))).fields.map Prod.snd
            = (inferTypes (mangle (splitStr ',' header))
                (body.map (fun l => splitStr ',' l))).map typeName := by
          simp only [toWire, mkTable]
          exact List.map_snd_zip _ _ (by simp [hctlen])
        rw [hfields]
        rw [show inferTypes (mangle (splitStr ',' header))
              (body.map (fun l => splitStr ',' l))
            = (List.range (mangle (splitStr ',' header)).length).map
                (fun i => colTypeAt i ((body.map (fun l => splitStr ',' l)).map
                  (fun r => r.getD i ""))) from rfl]
        rw [List.getElem?_map, List.getElem?_map, List.getElem?_range hj]
        simp only [Option.map_some']
        have hraw : rawColumn content j
            = (body.map (fun l => splitStr ',' l)).map (fun r => r.getD j "") := by
          unfold rawColumn
          rw [hlines]
          simp [List.map_map, Function.comp]
        rw [hraw]
        simp only [colTypeAt, inferColType]
        split_ifs <;> rfl
      · exact absurd h (by simp)
  · decide

/-- C3 (amended, witness): on the scenario table the general clause reports
the second column as `datetime`. -/
theorem csv_types_spec_witness :
    ((toWire tableScenario).fields.map Prod.snd)[1]? = some "datetime" := by
  have h := csv_types_spec.1 csvScenario tableScenario (by decide) 1 (by decide)
  rw [h]
  decide

/-! ### Claim C4 — missing catalog -/

/-- C4: when the resolved catalog file does not exist, the `/catalog/`
handler reports the `FileNotFoundError` raised by `read_csv` and never
returns a table document. -/
theorem catalog_missing (fs : FS) (triggerID : String)
    (h : fs.file (catalogPath triggerID) = none) :
    catalog_route fs triggerID
        = .errText ("ERROR: " ++ pyErrStr (.fileNotFound (catalogPath triggerID)))
      ∧ ∀ w, catalog_route fs triggerID ≠ .jsonTable w := by
  have hval : get_catalog fs triggerID = .error (.fileNotFound (catalogPath triggerID)) := by
    unfold get_catalog pd_read_csv
    rw [h]
  refine ⟨?_, ?_⟩
  · unfold catalog_route
    rw [hval]
  · intro w hw
    unfold catalog_route at hw
    rw [hval] at hw
    exact Response.noConfusion hw

/-- C4 (witness): a trigger with no files at all gets the FileNotFound error
response. -/
theorem catalog_missing_witness :
    catalog_route fsEmpty "2014p000000"
      = .errText ("ERROR: " ++ pyErrStr (.fileNotFound (catalogPath "2014p000000"))) :=
  (catalog_missing fsEmpty "2014p000000" rfl).1

/-! ### Claims C6, C10 — the `/plots/` handler -/

set_option maxRecDepth 4000 in
/-- Every known plot kind occurs verbatim in the Python `str` rendering of
`KNOWN_PLOT_TYPES`. -/
theorem kinds_in_repr :
    ∀ k ∈ KNOWN_PLOT_TYPES, k.data <:+: (pyListRepr KNOWN_PLOT_TYPES).data := by decide

/-- The two 400 bodies of the `/plots/` handler are textually identical. -/
theorem plotBodies_eq (pt : String) : plotBodyUnknown pt = plotBodyMissing pt := rfl

/-- Every known plot kind occurs verbatim in the 400 body. -/
theorem body_contains_kinds (pt k : String) (hk : k ∈ KNOWN_PLOT_TYPES) :
    k.data <:+: (plotBodyMissing pt).data := by
  refine (kinds_in_repr k hk).trans
    ⟨("\n    <html>\n        <p>" ++ pt ++
        " is not a known plot format.</p>\n        <p>Known plot types:</p>\n        <p>").data,
      ("</p>\n    </html>\n    ").data, ?_⟩
  simp [plotBodyMissing, String.data_append, List.append_assoc]

/-- C6: an unknown plot kind, or a known kind whose resolved file is absent,
gets a 400 response whose body lists all eight known kinds verbatim;
otherwise the handler serves the resolved file's bytes. -/
theorem plots_route_spec (fs : FS) (triggerID plot_type : String) :
    ((plot_type ∉ KNOWN_PLOT_TYPES ∨ fs.file (plotPath triggerID plot_type) = none) →
      ∃ body, plots_route fs triggerID plot_type = .html 400 body ∧
        ∀ k ∈ KNOWN_PLOT_TYPES, k.data <:+: body.data)
  ∧ (∀ c, plot_type ∈ KNOWN_PLOT_TYPES →
      fs.file (plotPath triggerID plot_type) = some c →
      plots_route fs triggerID plot_type = .fileBytes c) := by
  constructor
  · intro hcase
    unfold plots_route
    by_cases hmem : plot_type ∈ KNOWN_PLOT_TYPES
    · have hnone : fs.file (plotPath triggerID plot_type) = none := by
        cases hcase with
        | inl hc => exact absurd hmem hc
        | inr hc => exact hc
      rw [if_pos hmem, hnone]
      exact ⟨plotBodyMissing plot_type, rfl, fun k hk => body_contains_kinds _ k hk⟩
    · rw [if_neg hmem]
      refine ⟨plotBodyUnknown plot_type, rfl, fun k hk => ?_⟩
      rw [plotBodies_eq]
      exact body_contains_kinds _ k hk
  · intro c hmem hsome
    unfold plots_route
    rw [if_pos hmem, hsome]

/-- C6 (witness): the unknown kind `bogus` yields a 400 body listing all
eight kinds. -/
theorem plots_route_spec_witness :
    ∃ body, plots_route fsEmpty "2014p051675" "bogus" = .html 400 body ∧
      ∀ k ∈ KNOWN_PLOT_TYPES, k.data <:+: body.data :=
  (plots_route_spec fsEmpty "2014p051675" "bogus").1 (Or.inl (by decide))

/-- C10: a known kind whose resolved plot file is absent gets the 400 page
whose body says the kind "is not a known plot format" — the identical text of
the unknown-kind branch — while listing the known plot types. -/
theorem plots_missing_message (fs : FS) (triggerID plot_type : String)
    (hmem : plot_type ∈ KNOWN_PLOT_TYPES)
    (hnone : fs.file (plotPath triggerID plot_type) = none) :
    plots_route fs triggerID plot_type = .html 400 (plotBodyMissing plot_type)
  ∧ plotBodyMissing plot_type = plotBodyUnknown plot_type
  ∧ (plot_type ++ " is not a known plot format.").data <:+: (plotBodyMissing plot_type).data
  ∧ ∀ k ∈ KNOWN_PLOT_TYPES, k.data <:+: (plotBodyMissing plot_type).data := by
  refine ⟨?_, rfl, ?_, fun k hk => body_contains_kinds _ k hk⟩
  · unfold plots_route
    rw [if_pos hmem, hnone]
  · refine ⟨("\n    <html>\n        <p>").data,
      ("</p>\n        <p>Known plot types:</p>\n        <p>" ++
        pyListRepr KNOWN_PLOT_TYPES ++ "</p>\n    </html>\n    ").data, ?_⟩
    simp [plotBodyMissing, String.data_append, List.append_assoc]

/-- C10 (witness): `catalog_RT` with no plot file gets the missing-file 400
page. -/
theorem plots_missing_message_witness :
    plots_route fsEmpty "2014p051675" "catalog_RT"
      = .html 400 (plotBodyMissing "catalog_RT") :=
  (plots_missing_message fsEmpty "2014p051675" "catalog_RT" (by decide) rfl).1

/-! ### Claim C7 — the `/triggers/` payload -/

/-- C7: the `/triggers/` handler does not stream a JSON array of trigger IDs:
the content it hands to `StreamingResponse` is the object
`{"trigger_ids": [...]}` wrapping the array, and is not an array for any
element list. -/
theorem triggers_route_not_array :
    triggers_route fsScenario
        = .stream (.obj [("trigger_ids", .arr [.str "2014p051675"])])
      ∧ ∀ l, triggers_route fsScenario ≠ .stream (.arr l) := by
  have hval : triggers_route fsScenario
      = .stream (.obj [("trigger_ids", .arr [.str "2014p051675"])]) := rfl
  refine ⟨hval, fun l h => ?_⟩
  rw [hval] at h
  have hj := Response.stream.inj h
  exact Json.noConfusion hj

end RTEQC
